import Mathlib

/-!
Verification of the WhatsApp-business chatbot administrative application
(single-file Flask app) against its natural-language specification.

The Python source is shallowly embedded: SQLite tables become Lists of
row structures kept in storage (insertion) order, SQL statements become
the corresponding list operations, wall-clock time becomes a Nat
parameter (seconds), and network / HTTP effects become explicit inputs
(an Option value standing for a response or a raised exception).
All definitions are executable.
-/

/-! ## SQLite LIKE matching

The responder uses the SQL queries
question LIKE ? and content LIKE ? with pattern %query%.
SQLite default LIKE semantics: the percent sign matches any character
sequence, the underscore matches any single character, and ordinary
characters compare case-insensitively in the ASCII range only.
Implemented with a fuel argument (pattern length + text length always
suffices) so that the function is structurally recursive and
kernel-reducible. -/

/-- Lowercases an ASCII uppercase letter, the case folding SQLite's
default LIKE applies; other characters are unchanged. -/
def asciiLower (c : Char) : Char :=
  if 'A' ≤ c ∧ c ≤ 'Z' then Char.ofNat (c.toNat + 32) else c

/-- Fueled SQLite LIKE pattern matcher over character lists.
First list is the pattern, second the text. -/
def likePatF : Nat → List Char → List Char → Bool
  | 0, _, _ => false
  | _ + 1, [], s => s.isEmpty
  | fuel + 1, '%' :: ps, s =>
      likePatF fuel ps s ||
        (match s with
         | [] => false
         | _ :: s' => likePatF fuel ('%' :: ps) s')
  | fuel + 1, '_' :: ps, s =>
      (match s with
       | [] => false
       | _ :: s' => likePatF fuel ps s')
  | fuel + 1, p :: ps, s =>
      (match s with
       | [] => false
       | c :: s' => (asciiLower p = asciiLower c) && likePatF fuel ps s')

/-- Models the SQL condition column LIKE pattern where the pattern is
the percent-wrapped query string, as built by find_response. -/
def likeMatch (query s : String) : Bool :=
  likePatF (query.toList.length + s.toList.length + 3)
    ('%' :: (query.toList ++ ['%'])) s.toList

/-! ## Data model (rows of the SQLite tables used by the claims) -/

/-- Row of the faqs table. -/
structure Faq where
  id : Nat
  question : String
  answer : String
  parentId : Option Nat
  deriving DecidableEq

/-- Row of the knowledge table (the JSON serialization of the image
list column is modelled as the list itself). -/
structure Knowledge where
  url : String
  title : String
  content : String
  images : List String
  deriving DecidableEq

/-- The slice of the database read by the webhook message path. -/
structure BotDB where
  faqs : List Faq
  knowledge : List Knowledge
  deriving DecidableEq

/-! ## Responder: find_response -/

/-- Fallback string returned by find_response when neither store
matches. -/
def fallbackMessage : String :=
  "Sorry, I don\x27t have an answer for that. Please contact support."

/-- Models find_response: SELECT answer FROM faqs WHERE question LIKE
%query% LIMIT 1, then the same over knowledge.content, else the fixed
fallback string. A SELECT ... LIMIT 1 over a table scan is the head of
the filtered row list. -/
def find_response (db : BotDB) (query : String) : String :=
  match (db.faqs.filter (fun f => likeMatch query f.question)).head? with
  | some f => f.answer
  | none =>
    match (db.knowledge.filter (fun k => likeMatch query k.content)).head? with
    | some k => k.content
    | none => fallbackMessage

/-! ## Content moderation: is_moderated -/

/-- Static deny-list from is_moderated. -/
def bad_keywords : List String := ["badword1", "badword2"]

/-- Lowercase a character list, modelling Python str.lower on the
deny-list check (the deny-listed words are ASCII, for which Char.toLower
agrees with Python). -/
def lowerList (s : List Char) : List Char := s.map Char.toLower

/-- Boolean substring test, modelling the Python operator in on
strings. -/
def containsSub (needle : List Char) : List Char → Bool
  | [] => needle.isEmpty
  | c :: rest => needle.isPrefixOf (c :: rest) || containsSub needle rest

/-- Models is_moderated: true when some deny-listed keyword occurs
case-insensitively as a substring of the content. -/
def is_moderated (content : String) : Bool :=
  bad_keywords.any
    (fun w => containsSub (lowerList w.toList) (lowerList content.toList))

/-! ## Webhook POST message path -/

/-- Inbound message of a webhook POST event: the sender and, when the
message carries a text field, its body. -/
structure InboundMsg where
  sender : String
  text : Option String
  deriving DecidableEq

/-- Result of handling a POST webhook event: the HTTP response body and
the list of (recipient, text) pairs handed to send_whatsapp_message. -/
structure WebhookOut where
  reply : String
  sent : List (String × String)
  deriving DecidableEq

/-- Models the POST branch of webhook: payload without a messages entry
is acknowledged without action; otherwise the text body (empty string if
the text field is absent) is moderated; a moderated text returns
Moderated with no outbound send; otherwise find_response's answer is
sent to the sender. -/
def webhook_post (db : BotDB) (payload : Option InboundMsg) : WebhookOut :=
  match payload with
  | none => ⟨"OK", []⟩
  | some m =>
    let text := m.text.getD ""
    if is_moderated text then ⟨"Moderated", []⟩
    else ⟨"OK", [(m.sender, find_response db text)]⟩

/-! ## Webhook GET verification -/

/-- Result of the GET webhook verification branch. -/
inductive WebhookGetResult where
  | rejectedNotConfigured
  | rejectedFailed
  | challenge (c : Option String)
  deriving DecidableEq

/-- Models the Python expression a or b on optional strings: the first
operand is taken when it is a non-empty string, otherwise the second. -/
def pyOrStr : Option String → Option String → Option String
  | some s, b => if s = "" then b else some s
  | none, b => b

/-- Python falsiness of an optional string: None and the empty string
are falsy. -/
def isFalsyStr : Option String → Bool
  | none => true
  | some s => s = ""

/-- Models the GET branch of webhook: the verify token is the DB setting
or else the environment variable (Python or); a falsy verify token is a
configuration rejection; a supplied token equal to the verify token
echoes the challenge; otherwise verification fails. -/
def webhook_get (dbToken envToken supplied challengeArg : Option String) :
    WebhookGetResult :=
  let verify := pyOrStr dbToken envToken
  if isFalsyStr verify then .rejectedNotConfigured
  else if supplied = verify then .challenge challengeArg
  else .rejectedFailed


/-! ## Password reset tokens -/

/-- Row of the password_reset_tokens table. Times are seconds. -/
structure ResetToken where
  email : String
  token : String
  expiresAt : Nat
  used : Bool
  deriving DecidableEq

/-- Row of the users table (email is nullable). -/
structure User where
  username : String
  password : String
  email : Option String
  deriving DecidableEq

/-- Models werkzeug's generate_password_hash as an executable tagging
function; the claims only compare stored rows, never invert the hash. -/
def generate_password_hash (p : String) : String := "pbkdf2:sha256:" ++ p

/-- Models the POST branch of forgot_password: a fresh token row is
inserted with expiry one hour (3600 seconds) after the current time and
used defaulting to false. -/
def forgot_password (email tok : String) (now : Nat) (db : List ResetToken) :
    List ResetToken :=
  db ++ [⟨email, tok, now + 3600, false⟩]

/-- Response text of reset_password for a missing, used or expired
token. -/
def invalidTokenMsg : String := "Invalid or expired token."

/-- Response text of reset_password on success. -/
def resetSuccessMsg : String :=
  "Password reset successful. <a href=\"/login\">Login</a>"

/-- Outcome of a reset_password POST: the response body and the updated
token and user tables. -/
structure ResetOutcome where
  response : String
  tokens : List ResetToken
  users : List User
  deriving DecidableEq

/-- Models the POST branch of reset_password: the row is looked up by
token; a missing row, a used row, or a current time past the expiry is
rejected; otherwise the user's password is replaced and the token row is
marked used. -/
def reset_password (tok newpw : String) (now : Nat) (db : List ResetToken)
    (users : List User) : ResetOutcome :=
  match db.find? (fun r => r.token == tok) with
  | none => ⟨invalidTokenMsg, db, users⟩
  | some row =>
    if row.used || decide (row.expiresAt < now) then ⟨invalidTokenMsg, db, users⟩
    else
      ⟨resetSuccessMsg,
       db.map (fun r => if r.token == tok then {r with used := true} else r),
       users.map (fun u =>
         if u.email == some row.email
         then {u with password := generate_password_hash newpw} else u)⟩

/-! ## Settings store -/

/-- The settings table as key-value rows in storage order. -/
abbrev Settings := List (String × String)

/-- Models update_setting: INSERT OR REPLACE removes any row with a
conflicting key and appends the new row. -/
def update_setting (k v : String) (db : Settings) : Settings :=
  db.filter (fun p => p.1 != k) ++ [(k, v)]

/-- Models get_setting with its default of None: the value of the first
row with the key, if any. -/
def get_setting (k : String) (db : Settings) : Option String :=
  (db.find? (fun p => p.1 == k)).map (fun p => p.2)

/-! ## FAQ deletion -/

/-- Models delete_faq: DELETE FROM faqs WHERE parent_id = ? followed by
DELETE FROM faqs WHERE id = ?. -/
def delete_faq (fid : Nat) (db : List Faq) : List Faq :=
  (db.filter (fun r => r.parentId != some fid)).filter (fun r => r.id != fid)

/-! ## Crawler: tag stripping

The crawler strips markup with re.sub applied to the pattern: an opening
angle bracket, one or more characters none of which is an opening angle
bracket (lazy), and a closing angle bracket. Matching is leftmost,
non-overlapping, the lazy repetition ending at the first possible
closing bracket. Implemented with a fuel argument (the input length
always suffices, since every step consumes at least one character) so
the function is structurally recursive and kernel-reducible. -/

/-- Scans for the closing angle bracket of a tag match: succeeds at the
first closing bracket, fails when an opening bracket or the end of input
is reached first. Returns the input remaining after the bracket. -/
def tagScan : List Char → Option (List Char)
  | [] => none
  | c :: rest =>
    if c = '>' then some rest
    else if c = '<' then none
    else tagScan rest

/-- Attempts the lazy tag match at an opening angle bracket, given the
characters after it: the first character must exist and not be an
opening bracket (the one-or-more repetition), then the first closing
bracket ends the match. -/
def tagMatch : List Char → Option (List Char)
  | [] => none
  | c :: rest => if c = '<' then none else tagScan rest

/-- Fueled left-to-right scan of re.sub with the tag pattern: at an
opening bracket where the tag match succeeds the matched span is
dropped and scanning resumes after it; everywhere else one character is
kept. -/
def stripTagsF : Nat → List Char → List Char
  | 0, s => s
  | _ + 1, [] => []
  | fuel + 1, c :: rest =>
    if c = '<' then
      match tagMatch rest with
      | some rest' => stripTagsF fuel rest'
      | none => c :: stripTagsF fuel rest
    else c :: stripTagsF fuel rest

/-- Models re.sub of the tag pattern with the empty replacement. -/
def stripTags (s : List Char) : List Char := stripTagsF s.length s

/-! ## Crawler: entity unescaping -/

/-- Models html.unescape's entity table, abridged to the common named
entities (the claims never depend on the exotic names). -/
def namedEntities : List (String × Char) :=
  [("amp;", '&'), ("lt;", '<'), ("gt;", '>'),
   ("quot;", '"'), ("apos;", '\x27'), ("nbsp;", ' ')]

/-- Decimal value of a digit list. -/
def digitsToNat (ds : List Char) : Nat :=
  ds.foldl (fun n c => n * 10 + (c.toNat - 48)) 0

/-- Recognizes an entity reference at the characters following an
ampersand: a named entity from the table, or a decimal numeric
reference. Returns the decoded character and the number of characters
consumed. -/
def matchEntity (s : List Char) : Option (Char × Nat) :=
  match namedEntities.find? (fun e => e.1.toList.isPrefixOf s) with
  | some e => some (e.2, e.1.length)
  | none =>
    match s with
    | '#' :: rest =>
      let ds := rest.takeWhile (fun c => c.isDigit)
      if ds.isEmpty then none
      else
        match rest.dropWhile (fun c => c.isDigit) with
        | ';' :: _ => some (Char.ofNat (digitsToNat ds), ds.length + 2)
        | _ => none
    | _ => none

/-- Fueled entity unescaping scan (the input length always suffices,
since every step consumes at least one character). -/
def unescapeF : Nat → List Char → List Char
  | 0, s => s
  | _ + 1, [] => []
  | fuel + 1, c :: rest =>
    if c = '&' then
      match matchEntity rest with
      | some (e, n) => e :: unescapeF fuel (rest.drop n)
      | none => c :: unescapeF fuel rest
    else c :: unescapeF fuel rest

/-- Models html.unescape on the crawler's stripped text. -/
def unescapeStr (s : List Char) : String := String.mk (unescapeF s.length s)

/-! ## Crawler: title extraction

The title is re.search of an opening title tag, a lazy capture in which
the dot does not match a newline, and a closing title tag; the search is
for the leftmost position at which the whole pattern matches, the lazy
capture ending at the first possible closing tag. -/

/-- Captures characters up to the first closing title tag, failing at a
newline or the end of input. -/
def titleClose : List Char → Option (List Char)
  | [] => none
  | c :: rest =>
    if ("</title>".toList).isPrefixOf (c :: rest) then some []
    else if c = '\n' then none
    else (titleClose rest).map (fun t => c :: t)

/-- Models re.search of the title pattern: tries every position left to
right; at an opening title tag, the capture runs to the first closing
tag provided no newline intervenes, else the search continues at the
next position. -/
def titleSearch : List Char → Option (List Char)
  | [] => none
  | c :: rest =>
    if ("<title>".toList).isPrefixOf (c :: rest) then
      match titleClose ((c :: rest).drop 7) with
      | some t => some t
      | none => titleSearch rest
    else titleSearch rest

/-! ## Crawler: image extraction

The images are re.findall of the pattern: the literal opening of an img
tag, a lazy gap (dot excluding newline), the literal src attribute
opener, a lazy capture (dot excluding newline), and a closing double
quote. Matches are leftmost and non-overlapping. -/

/-- Scans for the first occurrence of the needle, failing at a newline
or the end of input; returns the characters after the needle. -/
def scanTo (needle : List Char) : List Char → Option (List Char)
  | [] => if needle.isEmpty then some [] else none
  | c :: rest =>
    if needle.isPrefixOf (c :: rest) then some ((c :: rest).drop needle.length)
    else if c = '\n' then none
    else scanTo needle rest

/-- Captures characters up to the first stop character, failing at a
newline or the end of input; returns the capture and the remainder after
the stop character. -/
def captureTo (stop : Char) : List Char → Option (List Char × List Char)
  | [] => none
  | c :: rest =>
    if c = stop then some ([], rest)
    else if c = '\n' then none
    else
      match captureTo stop rest with
      | some (cap, r) => some (c :: cap, r)
      | none => none

/-- Attempts the rest of the img pattern after its literal opening: the
lazy gap up to the src attribute opener, then the lazy capture up to a
double quote. -/
def imgAfter (s : List Char) : Option (List Char × List Char) :=
  match scanTo ("src=\"".toList) s with
  | some t => captureTo '"' t
  | none => none

/-- Fueled left-to-right scan of re.findall with the img pattern. -/
def imgScanF : Nat → List Char → List (List Char)
  | 0, _ => []
  | _ + 1, [] => []
  | fuel + 1, c :: rest =>
    if ("<img".toList).isPrefixOf (c :: rest) then
      match imgAfter ((c :: rest).drop 4) with
      | some (cap, rem) => cap :: imgScanF fuel rem
      | none => imgScanF fuel rest
    else imgScanF fuel rest

/-- Models re.findall of the img pattern: the captured src values in
document order. -/
def imgScan (s : List Char) : List (List Char) := imgScanF s.length s

/-! ## Crawler: URL resolution -/

/-- Character allowed inside a URL scheme after its first letter. -/
def isSchemeChar (c : Char) : Bool :=
  c.isAlphanum || c = '+' || c = '-' || c = '.'

/-- Tests whether a reference starts with a scheme (a letter, scheme
characters, then a colon). -/
def hasScheme : List Char → Bool
  | [] => false
  | c :: rest =>
    c.isAlpha &&
      (match rest.dropWhile isSchemeChar with
       | ':' :: _ => true
       | _ => false)

/-- Splits an absolute URL into scheme (without the colon), host, and
path; none when the URL is not of the scheme-double-slash form. -/
def splitAbs (b : List Char) : Option (List Char × List Char × List Char) :=
  let scheme := b.takeWhile (fun c => c ≠ ':')
  let rest := b.drop scheme.length
  if ("://".toList).isPrefixOf rest then
    let after := rest.drop 3
    let host := after.takeWhile (fun c => c ≠ '/')
    let path := after.drop host.length
    some (scheme, host, path)
  else none

/-- Base directory of a path: everything up to and including the last
slash, or a single slash when the path has none. -/
def dirOf (path : List Char) : List Char :=
  let rev := path.reverse.dropWhile (fun c => c ≠ '/')
  if rev.isEmpty then ['/'] else rev.reverse

/-- Models urllib.parse.urljoin for an absolute http-style base and the
common reference shapes: an empty reference keeps the base, a reference
with a scheme is already absolute, a double-slash reference inherits the
scheme, a rooted reference inherits scheme and host, and a relative
reference is merged with the base directory. Dot-segment normalization,
query and fragment handling are beyond what the claims need and are not
modelled. -/
def urljoin (base ref : String) : String :=
  let b := base.toList
  let r := ref.toList
  if r.isEmpty then base
  else if hasScheme r then ref
  else
    match splitAbs b with
    | none => ref
    | some (scheme, host, path) =>
      if ("//".toList).isPrefixOf r then String.mk (scheme ++ [':'] ++ r)
      else if r.head? = some '/' then
        String.mk (scheme ++ (":".toList ++ "//".toList) ++ host ++ r)
      else
        String.mk (scheme ++ (":".toList ++ "//".toList) ++ host ++ dirOf path ++ r)

/-! ## Crawler and training endpoint -/

/-- Record produced by a successful crawl_url call. -/
structure CrawlData where
  url : String
  title : String
  content : String
  images : List String
  deriving DecidableEq

/-- Models crawl_url. The network effect is an explicit input: none
stands for a raised request exception, some pairs the HTTP status with
the body text. A non-200 status or an exception yields none; otherwise
the body is tag-stripped and entity-unescaped, the title extracted, and
every captured img src resolved against the page URL. -/
def crawl_url (url : String) (resp : Option (Nat × String)) : Option CrawlData :=
  match resp with
  | none => none
  | some (status, body) =>
    if status ≠ 200 then none
    else
      some { url := url
             title := (titleSearch body.toList).elim "" String.mk
             content := unescapeStr (stripTags body.toList)
             images := (imgScan body.toList).map (fun cap => urljoin url (String.mk cap)) }

/-- Knowledge row built from a crawl record (the JSON serialization of
the image list is modelled as the list itself). -/
def knowledgeRow (d : CrawlData) : Knowledge :=
  ⟨d.url, d.title, d.content, d.images⟩

/-- Models save_to_knowledge: one INSERT appending a knowledge row. -/
def save_to_knowledge (d : CrawlData) (db : List Knowledge) : List Knowledge :=
  db ++ [knowledgeRow d]

/-- Models the train endpoint: every URL is fetched (the thread pool
only affects completion order, which the claims leave unconstrained, so
submission order is used), each non-none crawl result is saved, and the
endpoint reports success unconditionally. -/
def train (net : String → Option (Nat × String)) (urls : List String)
    (db : List Knowledge) : List Knowledge × Bool :=
  (urls.foldl (fun acc u =>
      match crawl_url u (net u) with
      | some d => save_to_knowledge d acc
      | none => acc) db,
   true)

/-! ## FAQ listing -/

/-- Entry of the JSON tree returned by get_faqs; sub-FAQs are
question-answer pairs. -/
structure FaqEntry where
  question : String
  answer : String
  sub_faqs : List (String × String)
  deriving DecidableEq

/-- One iteration of the get_faqs loop over a row: a row with no parent
is inserted into the tree dictionary under its id (Python dict insertion
keeps an existing key's position and replaces its value); a row with a
parent is appended to the parent's sub-FAQs when the parent id is
already a key, and is dropped otherwise. -/
def faqStep (acc : List (Nat × FaqEntry)) (r : Faq) : List (Nat × FaqEntry) :=
  match r.parentId with
  | none =>
    if acc.any (fun p => p.1 == r.id) then
      acc.map (fun p => if p.1 == r.id then (p.1, ⟨r.question, r.answer, []⟩) else p)
    else
      acc ++ [(r.id, ⟨r.question, r.answer, []⟩)]
  | some pid =>
    if acc.any (fun p => p.1 == pid) then
      acc.map (fun p =>
        if p.1 == pid
        then (p.1, ⟨p.2.question, p.2.answer, p.2.sub_faqs ++ [(r.question, r.answer)]⟩)
        else p)
    else acc

/-- Models get_faqs applied to the rows as ordered by the query (created
at, descending): the loop over the rows followed by taking the
dictionary's values in insertion order. -/
def get_faqs (rows : List Faq) : List FaqEntry :=
  (rows.foldl faqStep []).map (fun p => p.2)

/-! ## Reference characterization of get_faqs

A recursive description of the listing: each row with no parent becomes
an entry whose sub-FAQs are the strictly later rows referencing its id;
rows with a parent produce no entry of their own. Proved equal to
get_faqs when row ids are distinct. -/

/-- Question-answer pairs of the rows whose parent reference is the
given id, in row order. -/
def subsFor (pid : Nat) (rows : List Faq) : List (String × String) :=
  (rows.filter (fun r => r.parentId == some pid)).map (fun r => (r.question, r.answer))

/-- Keyed reference entries: a parentless row contributes an entry built
from the rows after it; a row with a parent contributes nothing. -/
def faqPairs : List Faq → List (Nat × FaqEntry)
  | [] => []
  | r :: rest =>
    match r.parentId with
    | none => (r.id, ⟨r.question, r.answer, subsFor r.id rest⟩) :: faqPairs rest
    | some _ => faqPairs rest

/-- Reference form of the FAQ listing. -/
def get_faqs_ref (rows : List Faq) : List FaqEntry :=
  (faqPairs rows).map (fun p => p.2)

/-! ## Reference characterization of the crawler's tag stripping

The source scanner above mirrors the regex engine; here the ending of a
lazy tag match is described instead through takeWhile and dropWhile: the
match at an opening bracket covers one obligatory character and then the
longest run of characters that are neither bracket, and succeeds exactly
when the first bracket-character after that run is a closing one. -/

/-- Character that is neither an opening nor a closing angle bracket. -/
def nonSpecial (c : Char) : Bool := !(c = '<' || c = '>')

/-- Length of the lazy tag match starting at the head of the input, if
the pattern matches there. -/
def tagLen (s : List Char) : Option Nat :=
  match s with
  | c0 :: c :: rest =>
    if c0 = '<' ∧ c ≠ '<' then
      match rest.dropWhile nonSpecial with
      | '>' :: _ => some ((rest.takeWhile nonSpecial).length + 3)
      | _ => none
    else none
  | _ => none

/-- Fueled reference scan removing each leftmost tag match by its
length. -/
def stripRefF : Nat → List Char → List Char
  | 0, s => s
  | _ + 1, [] => []
  | fuel + 1, c :: rest =>
    match tagLen (c :: rest) with
    | some n => stripRefF fuel ((c :: rest).drop n)
    | none => c :: stripRefF fuel rest

/-- Reference form of the crawler's tag stripping. -/
def stripRef (s : List Char) : List Char := stripRefF s.length s

/-! ## The tag-stripping rule as the claim words it

The claim describes the stripping rule as removing anything between an
opening angle bracket and the next closing one. The following
definitions follow the claim's words, not the source, and exist to be
compared with the source-derived stripTags. -/

/-- Claim-worded stripping rule: outside a tag, an opening bracket
enters tag mode; inside a tag everything through the next closing
bracket is dropped. -/
def specStripGo : Bool → List Char → List Char
  | _, [] => []
  | true, c :: rest =>
    if c = '>' then specStripGo false rest else specStripGo true rest
  | false, c :: rest =>
    if c = '<' then specStripGo true rest else c :: specStripGo false rest

/-- Claim-worded stripping rule, from the start of the body. -/
def specStrip (s : List Char) : List Char := specStripGo false s

/-- Remainder after the first occurrence of the needle; follows the
claim's words for locating a tag, with no newline restriction. -/
def findAfter (needle : List Char) : List Char → Option (List Char)
  | [] => if needle.isEmpty then some [] else none
  | c :: rest =>
    if needle.isPrefixOf (c :: rest) then some ((c :: rest).drop needle.length)
    else findAfter needle rest

/-- Characters before the first occurrence of the needle, if the needle
occurs. -/
def upToNeedle (needle : List Char) : List Char → Option (List Char)
  | [] => none
  | c :: rest =>
    if needle.isPrefixOf (c :: rest) then some []
    else (upToNeedle needle rest).map (fun t => c :: t)

/-- Claim-worded title: the text of the first title tag, the empty
string if absent. -/
def specTitle (s : List Char) : String :=
  match findAfter ("<title>".toList) s with
  | some t => ((upToNeedle ("</title>".toList) t).elim "" String.mk)
  | none => ""

/-- Attribute-position src values inside one tag's characters: each
occurrence of a space, the attribute name src, an equals sign and an
opening double quote, captured up to the closing quote. -/
def specSrcIn : List Char → List (List Char)
  | [] => []
  | c :: rest =>
    if (" src=\"".toList).isPrefixOf (c :: rest) then
      match upToNeedle ("\"".toList) ((c :: rest).drop 6) with
      | some v => v :: specSrcIn rest
      | none => specSrcIn rest
    else specSrcIn rest

/-- Character spans of the img tags (from each img opening to the next
closing bracket), following the claim's words. -/
def specImgTags : List Char → List (List Char)
  | [] => []
  | c :: rest =>
    if ("<img".toList).isPrefixOf (c :: rest) then
      match upToNeedle (">".toList) ((c :: rest).drop 4) with
      | some tag => tag :: specImgTags rest
      | none => specImgTags rest
    else specImgTags rest

/-- Claim-worded image list: every src attribute of every img tag,
resolved against the page URL, in document order. -/
def specImgs (url : String) (s : List Char) : List String :=
  ((specImgTags s).map specSrcIn).flatten.map (fun v => urljoin url (String.mk v))



/-! ## Claim C1: moderated inbound text sends nothing -/

/-- C1: for every inbound webhook message whose text body contains a
deny-listed keyword under the case-insensitive substring check, the
handler answers Moderated and hands nothing to send_whatsapp_message. -/
theorem c1_moderated_suppresses_send (db : BotDB) (sender body : String)
    (h : ∃ w ∈ bad_keywords,
      containsSub (lowerList w.toList) (lowerList body.toList) = true) :
    webhook_post db (some ⟨sender, some body⟩) = ⟨"Moderated", []⟩ := by
  have hm : is_moderated body = true := by
    rcases h with ⟨w, hw, hc⟩
    simp only [is_moderated, List.any_eq_true]
    exact ⟨w, hw, hc⟩
  simp [webhook_post, hm]

/-- Witness for C1 at a concrete moderated message. -/
theorem c1_moderated_suppresses_send_witness :
    webhook_post ⟨[], []⟩ (some ⟨"15550001111", some "that BadWord1 again"⟩) =
      ⟨"Moderated", []⟩ :=
  c1_moderated_suppresses_send ⟨[], []⟩ "15550001111" "that BadWord1 again"
    ⟨"badword1", by decide, by decide⟩

/-! ## Claim C2: responder search order and fallback -/

/-- C2: find_response returns the first LIKE-matching FAQ's answer; when
no FAQ matches, the first LIKE-matching knowledge entry's content; and
the fixed fallback string when neither store matches. The three cases
are exhaustive, so the fallback branch is taken exactly when neither
store contains a match. -/
theorem c2_find_response_characterization (db : BotDB) (query : String) :
    (∀ f, db.faqs.find? (fun f => likeMatch query f.question) = some f →
      find_response db query = f.answer) ∧
    (db.faqs.find? (fun f => likeMatch query f.question) = none →
      ∀ k, db.knowledge.find? (fun k => likeMatch query k.content) = some k →
        find_response db query = k.content) ∧
    (db.faqs.find? (fun f => likeMatch query f.question) = none →
      db.knowledge.find? (fun k => likeMatch query k.content) = none →
      find_response db query = fallbackMessage) := by
  refine ⟨?_, ?_, ?_⟩
  · intro f hf
    simp [find_response, List.filter_head?, hf]
  · intro hf k hk
    simp [find_response, List.filter_head?, hf, hk]
  · intro hf hk
    simp [find_response, List.filter_head?, hf, hk]

/-- Witness for C2 at a concrete store and query. -/
theorem c2_find_response_characterization_witness :
    find_response ⟨[⟨1, "opening hours", "9-5", none⟩], []⟩ "hour" = "9-5" :=
  (c2_find_response_characterization ⟨[⟨1, "opening hours", "9-5", none⟩], []⟩
    "hour").1 ⟨1, "opening hours", "9-5", none⟩ (by decide)

/-! ## Claim C4: GET webhook verification -/

/-- C4: with no verify token configured (DB setting and environment both
falsy) the GET handler rejects; with a configured token, a matching
supplied token echoes the challenge and anything else is rejected. -/
theorem c4_webhook_verification (dbT envT sup chal : Option String) :
    (isFalsyStr (pyOrStr dbT envT) = true →
      webhook_get dbT envT sup chal = .rejectedNotConfigured) ∧
    (∀ v, pyOrStr dbT envT = some v → v ≠ "" → sup = some v →
      webhook_get dbT envT sup chal = .challenge chal) ∧
    (∀ v, pyOrStr dbT envT = some v → v ≠ "" → sup ≠ some v →
      webhook_get dbT envT sup chal = .rejectedFailed) := by
  refine ⟨?_, ?_, ?_⟩
  · intro h
    simp [webhook_get, h]
  · intro v hv hne hs
    simp [webhook_get, hv, isFalsyStr, hne, hs]
  · intro v hv hne hs
    simp [webhook_get, hv, isFalsyStr, hne, hs]

/-- Witness for C4: empty DB setting falls back to the environment
token, and a matching supplied token echoes the challenge. -/
theorem c4_webhook_verification_witness :
    webhook_get (some "") (some "tok") (some "tok") (some "12345") =
      .challenge (some "12345") :=
  (c4_webhook_verification (some "") (some "tok") (some "tok") (some "12345")).2.1
    "tok" (by decide) (by decide) rfl

/-! ## Claim C6: FAQ deletion cascades to direct children -/

/-- C6: delete_faq keeps exactly the rows that are neither the deleted
row nor a direct child of it, so the number of removed rows is the
number of rows whose id is the deleted id or whose parent reference is
the deleted id, and every other row is unchanged. -/
theorem c6_delete_faq_cascade (fid : Nat) (db : List Faq) :
    delete_faq fid db =
      db.filter (fun r => !(r.id == fid || r.parentId == some fid)) ∧
    db.length =
      (delete_faq fid db).length +
        db.countP (fun r => r.id == fid || r.parentId == some fid) := by
  have hfil : delete_faq fid db =
      db.filter (fun r => !(r.id == fid || r.parentId == some fid)) := by
    unfold delete_faq
    rw [List.filter_filter]
    refine List.filter_congr ?_
    intro r _
    cases h1 : (r.id == fid) <;> cases h2 : (r.parentId == some fid) <;>
      simp [h1, h2, bne]
  refine ⟨hfil, ?_⟩
  rw [hfil]
  have hq : (db.filter (fun r => !(r.id == fid || r.parentId == some fid))).length
      = db.countP (fun a => ¬((a.id == fid || a.parentId == some fid) = true)) := by
    rw [← List.countP_eq_length_filter]
    refine List.countP_congr ?_
    intro x _
    cases h : (x.id == fid || x.parentId == some fid) <;> simp [h]
  rw [hq, List.length_eq_countP_add_countP
    (p := fun r : Faq => r.id == fid || r.parentId == some fid) db]
  exact Nat.add_comm _ _

/-! ## Claim C8: settings upsert semantics -/

/-- Two pointwise-equal predicates find the same first element. -/
theorem find?_pred_congr {α : Type} (p q : α → Bool) (l : List α)
    (h : ∀ a, p a = q a) : l.find? p = l.find? q := by
  induction l with
  | nil => rfl
  | cons a t ih =>
    rw [List.find?_cons, List.find?_cons, h a]
    cases q a <;> simp [ih]

/-- C8: after update_setting the key reads back the new value, every
other key reads back unchanged, and the written key occupies exactly one
row. -/
theorem c8_update_setting_upsert (k v k' : String) (db : Settings) :
    get_setting k (update_setting k v db) = some v ∧
    (k' ≠ k → get_setting k' (update_setting k v db) = get_setting k' db) ∧
    (update_setting k v db).countP (fun p => p.1 == k) = 1 := by
  refine ⟨?_, ?_, ?_⟩
  · unfold get_setting update_setting
    rw [List.find?_append]
    have h1 : (db.filter (fun p => p.1 != k)).find? (fun p => p.1 == k) = none := by
      rw [List.find?_eq_none]
      intro x hx
      have := (List.mem_filter.mp hx).2
      simp only [bne_iff_ne, ne_eq] at this
      simp [this]
    rw [h1]
    simp [List.find?]
  · intro hne
    unfold get_setting update_setting
    rw [List.find?_append]
    have h2 : (db.filter (fun p => p.1 != k)).find? (fun p => p.1 == k') =
        db.find? (fun p => p.1 == k') := by
      rw [List.find?_filter]
      refine find?_pred_congr _ _ db ?_
      intro a
      by_cases h : a.1 = k'
      · simp [h, hne]
      · simp [h]
    rw [h2]
    have h3 : (([(k, v)] : Settings).find? (fun p => p.1 == k')) = none := by
      simp [List.find?_cons, Ne.symm hne]
    rw [h3]
    cases db.find? (fun p => p.1 == k') <;> simp
  · unfold update_setting
    rw [List.countP_append]
    have h4 : (db.filter (fun p => p.1 != k)).countP (fun p => p.1 == k) = 0 := by
      rw [List.countP_eq_zero]
      intro a ha
      have := (List.mem_filter.mp ha).2
      simp only [bne_iff_ne, ne_eq] at this
      simp [this]
    rw [h4]
    simp [List.countP, List.countP.go]

/-- Witness for C8 at concrete keys: the overwritten key reads the new
value and a distinct key is untouched. -/
theorem c8_update_setting_upsert_witness :
    get_setting "greeting_message" (update_setting "greeting_message" "Hi"
      [("greeting_message", "Hello!"), ("smtp_port", "587")]) = some "Hi" ∧
    get_setting "smtp_port" (update_setting "greeting_message" "Hi"
      [("greeting_message", "Hello!"), ("smtp_port", "587")]) =
      get_setting "smtp_port" [("greeting_message", "Hello!"), ("smtp_port", "587")] :=
  ⟨(c8_update_setting_upsert "greeting_message" "Hi" "x"
      [("greeting_message", "Hello!"), ("smtp_port", "587")]).1,
   (c8_update_setting_upsert "greeting_message" "Hi" "smtp_port"
      [("greeting_message", "Hello!"), ("smtp_port", "587")]).2.1 (by decide)⟩

/-! ## Claim C3: reset tokens are single-use and expire after one hour -/

/-- Marking the matching token rows used preserves every row's token, so
a token lookup over the updated table finds the updated image of the
originally found row. -/
theorem find?_map_markUsed (tok : String) (l : List ResetToken) :
    (l.map (fun r => if r.token == tok then {r with used := true} else r)).find?
      (fun r => r.token == tok) =
    (l.find? (fun r => r.token == tok)).map
      (fun r => if r.token == tok then {r with used := true} else r) := by
  rw [List.find?_map]
  congr 1
  refine find?_pred_congr _ _ l ?_
  intro r
  by_cases h : r.token = tok <;> simp [Function.comp, h]

/-- A reset succeeds exactly when the token row exists, is unused, and
its expiry has not passed. -/
theorem reset_password_success_iff (tok np : String) (now : Nat)
    (db : List ResetToken) (us : List User) :
    (reset_password tok np now db us).response = resetSuccessMsg ↔
    ∃ r, db.find? (fun r => r.token == tok) = some r ∧
      r.used = false ∧ now ≤ r.expiresAt := by
  unfold reset_password
  cases hf : db.find? (fun r => r.token == tok) with
  | none =>
    simp only [hf]
    constructor
    · intro h
      exact absurd h (by decide)
    · rintro ⟨r, hr, -, -⟩
      simp at hr
  | some row =>
    simp only [hf]
    by_cases hcond : (row.used || decide (row.expiresAt < now)) = true
    · simp only [hcond, if_true]
      constructor
      · intro h
        exact absurd h (by decide)
      · rintro ⟨r, hr, hu, hexp⟩
        injection hr with hr
        subst hr
        rcases Bool.or_eq_true_iff.mp hcond with h | h
        · rw [hu] at h
          cases h
        · have := of_decide_eq_true h
          omega
    · have hcond' : (row.used || decide (row.expiresAt < now)) = false :=
        Bool.eq_false_iff.mpr hcond
      simp only [hcond', Bool.false_eq_true, if_false]
      constructor
      · intro _
        refine ⟨row, rfl, ?_, ?_⟩
        · rcases Bool.or_eq_false_iff.mp hcond' with ⟨h1, -⟩
          exact h1
        · rcases Bool.or_eq_false_iff.mp hcond' with ⟨-, h2⟩
          have := of_decide_eq_false h2
          omega
      · intro _
        trivial

/-- C3: a reset with a token succeeds exactly when the token exists,
is unused, and its one-hour expiry has not passed; success marks the
token used so a second attempt answers invalid-or-expired; and a token
issued by forgot_password is rejected after its hour has passed even
when unused. -/
theorem c3_reset_token_semantics (tok new1 new2 email : String)
    (now now2 t0 : Nat) (db : List ResetToken) (users users2 : List User) :
    ((reset_password tok new1 now db users).response = resetSuccessMsg ↔
      ∃ r, db.find? (fun r => r.token == tok) = some r ∧
        r.used = false ∧ now ≤ r.expiresAt) ∧
    ((reset_password tok new1 now db users).response = resetSuccessMsg →
      (reset_password tok new2 now2
        (reset_password tok new1 now db users).tokens users2).response =
        invalidTokenMsg) ∧
    ((∀ r ∈ db, r.token ≠ tok) → t0 + 3600 < now2 →
      (reset_password tok new2 now2 (forgot_password email tok t0 db)
        users2).response = invalidTokenMsg) := by
  refine ⟨reset_password_success_iff tok new1 now db users, ?_, ?_⟩
  · intro h
    obtain ⟨row, hf, hu, hexp⟩ := (reset_password_success_iff tok new1 now db users).mp h
    have hcond : (row.used || decide (row.expiresAt < now)) = false := by
      rw [hu]
      simp
      omega
    have htoks : (reset_password tok new1 now db users).tokens =
        db.map (fun r => if r.token == tok then {r with used := true} else r) := by
      unfold reset_password
      simp only [hf, hcond, Bool.false_eq_true, if_false]
    rw [htoks]
    have htok : (row.token == tok) = true := by
      have h := List.find?_some hf
      simpa using h
    have hfind2 : (db.map (fun r =>
        if r.token == tok then {r with used := true} else r)).find?
          (fun r => r.token == tok) = some {row with used := true} := by
      rw [find?_map_markUsed tok db, hf]
      have heqtok : row.token = tok := by simpa using htok
      simp [heqtok]
    unfold reset_password
    rw [hfind2]
    simp
  · intro hall hlt
    have hfind : (forgot_password email tok t0 db).find?
        (fun r => r.token == tok) = some ⟨email, tok, t0 + 3600, false⟩ := by
      unfold forgot_password
      rw [List.find?_append]
      have hnone : db.find? (fun r => r.token == tok) = none :=
        List.find?_eq_none.mpr (fun x hx => by simp [hall x hx])
      rw [hnone]
      simp
    unfold reset_password
    rw [hfind]
    have : decide ((⟨email, tok, t0 + 3600, false⟩ : ResetToken).expiresAt < now2) = true := by
      simp
      omega
    simp [this]

/-- Witness for C3: a token issued at time 0 is rejected at time 3601. -/
theorem c3_reset_token_semantics_witness :
    (reset_password "t" "npw2" 3601 (forgot_password "a@b.c" "t" 0 []) []).response
      = invalidTokenMsg :=
  (c3_reset_token_semantics "t" "npw" "npw2" "a@b.c" 0 3601 0 [] [] []).2.2
    (by simp) (by decide)

/-! ## Claim C5: crawl batch produces one entry per success -/

/-- The training fold saves exactly the non-none crawl results, in
order, after the existing rows. -/
theorem train_foldl_eq (f : String → Option CrawlData) :
    ∀ (urls : List String) (db : List Knowledge),
      urls.foldl (fun acc u => match f u with
        | some d => save_to_knowledge d acc
        | none => acc) db
      = db ++ (urls.filterMap f).map knowledgeRow := by
  intro urls
  induction urls with
  | nil =>
    intro db
    simp
  | cons u us ih =>
    intro db
    rw [List.foldl_cons]
    cases hu : f u with
    | some d =>
      simp only [hu]
      rw [ih (save_to_knowledge d db), List.filterMap_cons_some hu]
      simp [save_to_knowledge, List.append_assoc]
    | none =>
      simp only [hu]
      rw [List.filterMap_cons_none hu]
      exact ih db

/-- C5: training on a batch of URLs succeeds unconditionally, appends
exactly the successful crawls (one knowledge row per success, none per
failure), and hence creates batch-size minus failure-count rows; a
non-200 status or a network exception is a failure. -/
theorem c5_train_counts (net : String → Option (Nat × String))
    (urls : List String) (db : List Knowledge) :
    (train net urls db).2 = true ∧
    (train net urls db).1 =
      db ++ (urls.filterMap (fun u => crawl_url u (net u))).map knowledgeRow ∧
    (train net urls db).1.length =
      db.length +
        (urls.length - urls.countP (fun u => (crawl_url u (net u)).isNone)) ∧
    (∀ u s body, net u = some (s, body) → s ≠ 200 →
      crawl_url u (net u) = none) ∧
    (∀ u, net u = none → crawl_url u (net u) = none) := by
  have heq : (train net urls db).1 =
      db ++ (urls.filterMap (fun u => crawl_url u (net u))).map knowledgeRow := by
    simpa [train] using train_foldl_eq (fun u => crawl_url u (net u)) urls db
  refine ⟨rfl, heq, ?_, ?_, ?_⟩
  · rw [heq, List.length_append, List.length_map, List.length_filterMap_eq_countP]
    have hsum := List.length_eq_countP_add_countP
      (p := fun u => (crawl_url u (net u)).isSome) urls
    have hcong : urls.countP (fun a => ¬((crawl_url a (net a)).isSome = true)) =
        urls.countP (fun u => (crawl_url u (net u)).isNone) := by
      refine List.countP_congr ?_
      intro x _
      cases crawl_url x (net x) <;> simp
    rw [hcong] at hsum
    omega
  · intro u s body hnet hs
    simp [crawl_url, hnet, hs]
  · intro u hnet
    simp [crawl_url, hnet]

/-- Witness for C5: a 404 response produces no knowledge entry. -/
theorem c5_train_counts_witness :
    crawl_url "http://a/"
      ((fun _ : String => (some (404, "x") : Option (Nat × String))) "http://a/") = none :=
  (c5_train_counts (fun _ => some (404, "x")) [] []).2.2.2.1
    "http://a/" 404 "x" rfl (by decide)

/-! ## Claim C9: a message without a text field matches everything -/

/-- A single percent wildcard matches any text (given enough fuel). -/
theorem likePatF_one_pct : ∀ (fuel : Nat) (l : List Char),
    l.length + 2 ≤ fuel → likePatF fuel ['%'] l = true := by
  intro fuel
  induction fuel with
  | zero =>
    intro l h
    omega
  | succ n ih =>
    intro l h
    cases l with
    | nil =>
      obtain ⟨m, rfl⟩ : ∃ m, n = m + 1 := ⟨n - 1, by omega⟩
      simp [likePatF]
    | cons c t =>
      have ht : t.length + 2 ≤ n := by
        simp only [List.length_cons] at h
        omega
      simp [likePatF, ih t ht]

/-- The double percent pattern, built by find_response from the empty
query, matches any text (given enough fuel). -/
theorem likePatF_two_pct (fuel : Nat) (l : List Char)
    (h : l.length + 3 ≤ fuel) : likePatF fuel ['%', '%'] l = true := by
  cases fuel with
  | zero => omega
  | succ n =>
    simp [likePatF, likePatF_one_pct n l (by omega)]

/-- The empty query LIKE-matches every stored text. -/
theorem likeMatch_empty (s : String) : likeMatch "" s = true := by
  have h0 : ("" : String).toList = [] := rfl
  unfold likeMatch
  rw [h0]
  simp only [List.length_nil, List.nil_append, Nat.zero_add]
  exact likePatF_two_pct _ _ (by omega)

/-- C9: a POST message event without a text field proceeds with the
empty query; the empty LIKE pattern matches every row, so the first
stored FAQ's answer is sent whenever a FAQ exists, the first knowledge
entry's content when only the knowledge store is non-empty, and the
fallback exactly when both stores are empty. -/
theorem c9_missing_text_first_match (db : BotDB) (sender : String) :
    (webhook_post db (some ⟨sender, none⟩)).sent =
      [(sender, find_response db "")] ∧
    (∀ f fs, db.faqs = f :: fs → find_response db "" = f.answer) ∧
    (db.faqs = [] → ∀ k ks, db.knowledge = k :: ks →
      find_response db "" = k.content) ∧
    (db.faqs = [] → db.knowledge = [] →
      find_response db "" = fallbackMessage) := by
  refine ⟨?_, ?_, ?_, ?_⟩
  · have hm : is_moderated "" = false := by decide
    simp [webhook_post, hm]
  · intro f fs hf
    simp [find_response, hf, List.filter_cons, likeMatch_empty]
  · intro hf k ks hk
    simp [find_response, hf, hk, List.filter_cons, likeMatch_empty]
  · intro hf hk
    simp [find_response, hf, hk]

/-- Witness for C9: with one stored FAQ, a text-less message is answered
with that FAQ's answer. -/
theorem c9_missing_text_first_match_witness :
    (webhook_post ⟨[⟨1, "q1", "a1", none⟩], []⟩
      (some ⟨"15550001111", none⟩)).sent = [("15550001111", "a1")] := by
  have h := c9_missing_text_first_match ⟨[⟨1, "q1", "a1", none⟩], []⟩ "15550001111"
  rw [h.1, h.2.1 ⟨1, "q1", "a1", none⟩ [] rfl]

/-! ## Claim C7: crawler extraction -/

/-- The regex-engine scan for a closing bracket agrees with the
takeWhile and dropWhile description of the lazy match ending. -/
theorem tagScan_eq (t : List Char) :
    tagScan t = (match t.dropWhile nonSpecial with
                 | '>' :: r => some r
                 | _ => none) := by
  induction t with
  | nil => rfl
  | cons c rest ih =>
    by_cases h1 : c = '>'
    · subst h1
      have hns : nonSpecial '>' = false := by decide
      simp [tagScan, List.dropWhile_cons, hns]
    · by_cases h2 : c = '<'
      · subst h2
        have hns : nonSpecial '<' = false := by decide
        have hne : ('<' : Char) ≠ '>' := by decide
        simp [tagScan, List.dropWhile_cons, hns, hne]
      · have hns : nonSpecial c = true := by
          simp [nonSpecial, h1, h2]
        simp [tagScan, List.dropWhile_cons, hns, h1, h2, ih]

/-- The regex-engine tag match and the reference tag length agree: both
fail together, and when they succeed the reference length drops exactly
the span the scanner consumed. -/
theorem tagLen_of_tagMatch (rest : List Char) :
    (tagMatch rest = none → tagLen ('<' :: rest) = none) ∧
    (∀ rest', tagMatch rest = some rest' →
      ∃ n, tagLen ('<' :: rest) = some n ∧ ('<' :: rest).drop n = rest') := by
  cases rest with
  | nil =>
    refine ⟨fun _ => rfl, ?_⟩
    intro r h
    simp [tagMatch] at h
  | cons c r2 =>
    by_cases hc : c = '<'
    · subst hc
      refine ⟨fun _ => rfl, ?_⟩
      intro r' h
      simp [tagMatch] at h
    · have hstep : tagLen ('<' :: c :: r2) =
          (match r2.dropWhile nonSpecial with
           | '>' :: _ => some ((r2.takeWhile nonSpecial).length + 3)
           | _ => none) := by
        simp only [tagLen]
        rw [if_pos ⟨trivial, hc⟩]
      constructor
      · intro h
        have hm : tagScan r2 = none := by simpa [tagMatch, hc] using h
        rw [tagScan_eq] at hm
        rw [hstep]
        cases hd : r2.dropWhile nonSpecial with
        | nil => rfl
        | cons d dr =>
          rw [hd] at hm
          split <;> simp_all
      · intro rest' h
        have hm : tagScan r2 = some rest' := by simpa [tagMatch, hc] using h
        rw [tagScan_eq] at hm
        cases hd : r2.dropWhile nonSpecial with
        | nil =>
          rw [hd] at hm
          simp at hm
        | cons d dr =>
          rw [hd] at hm
          by_cases hdg : d = '>'
          · subst hdg
            have hm' : dr = rest' := by
              split at hm <;> simp_all
            have h0 : r2.takeWhile nonSpecial ++ ('>' :: dr) = r2 := by
              conv_rhs => rw [← List.takeWhile_append_dropWhile (p := nonSpecial) (l := r2)]
              rw [hd]
            set tw := r2.takeWhile nonSpecial with htw
            refine ⟨tw.length + 3, ?_, ?_⟩
            · rw [hstep, hd]
              rfl
            · rw [← hm']
              have h3 : tw.length + 3 = tw.length + 1 + 1 + 1 := by omega
              rw [h3, List.drop_succ_cons, List.drop_succ_cons]
              rw [← h0]
              rw [show tw ++ ('>' :: dr) = (tw ++ ['>']) ++ dr by simp]
              exact List.drop_left' (by simp)
          · split at hm <;> simp_all

/-- The regex-engine scan and the reference scan agree for every fuel
value. -/
theorem stripF_eq : ∀ (fuel : Nat) (s : List Char),
    stripTagsF fuel s = stripRefF fuel s := by
  intro fuel
  induction fuel with
  | zero => intro s; rfl
  | succ n ih =>
    intro s
    cases s with
    | nil => rfl
    | cons c rest =>
      by_cases hc : c = '<'
      · subst hc
        cases hm : tagMatch rest with
        | none =>
          have hl := (tagLen_of_tagMatch rest).1 hm
          simp [stripTagsF, stripRefF, hm, hl, ih]
        | some rest' =>
          obtain ⟨n', hl, hdrop⟩ := (tagLen_of_tagMatch rest).2 rest' hm
          simp [stripTagsF, stripRefF, hm, hl, hdrop, ih]
      · have hl : tagLen (c :: rest) = none := by
          cases rest with
          | nil => rfl
          | cons d dr =>
            simp only [tagLen]
            rw [if_neg]
            rintro ⟨h1, -⟩
            exact hc h1
        simp [stripTagsF, stripRefF, hc, hl, ih]

/-- The source tag stripping equals its reference characterization. -/
theorem stripTags_eq_stripRef (s : List Char) : stripTags s = stripRef s :=
  stripF_eq s.length s

/-- Body of the C7 counterexample: a stray opening bracket before a
tag, a title containing a newline, and an img tag whose only attribute
is data-src. -/
def cexBody : String := "<a<b>c<title>x\ny</title><img data-src=\"u\">"

/-- Counterexample to C7 as stated: on a concrete fetched body, the
stored content differs from the claim's drop-through-the-next-closing-
bracket rule, the stored title differs from the text of the first title
tag, and the stored image list captures a data-src value that is not a
src attribute. -/
theorem c7_counterexample :
    crawl_url "http://e/" (some (200, cexBody)) =
      some ⟨"http://e/", "", "<acx\ny", ["http://e/u"]⟩ ∧
    unescapeStr (specStrip cexBody.toList) = "cx\ny" ∧
    specTitle cexBody.toList = "x\ny" ∧
    specImgs "http://e/" cexBody.toList = [] ∧
    ("<acx\ny" : String) ≠ "cx\ny" ∧
    ("" : String) ≠ "x\ny" ∧
    (["http://e/u"] : List String) ≠ [] := by
  refine ⟨by decide, by decide, by decide, by decide, by decide, by decide, by decide⟩

/-- C7 as amended: for a 200 response the crawler stores the body with
every leftmost match of the tag pattern (an opening bracket, one or more
characters none an opening bracket, up to the first closing bracket)
removed and then entity-unescaped; the title capture of the leftmost
title-pattern match whose capture contains no newline (empty string when
none matches); and the captures of the non-overlapping img-pattern
matches, resolved against the page URL, in document order. Any other
status or a network failure stores nothing. -/
theorem c7_crawl_extraction (url : String) :
    (∀ body : String,
      crawl_url url (some (200, body)) =
        some ⟨url, (titleSearch body.toList).elim "" String.mk,
              unescapeStr (stripRef body.toList),
              (imgScan body.toList).map (fun cap => urljoin url (String.mk cap))⟩) ∧
    (∀ s body, s ≠ 200 → crawl_url url (some (s, body)) = none) ∧
    crawl_url url none = none := by
  refine ⟨?_, ?_, rfl⟩
  · intro body
    simp [crawl_url, stripTags_eq_stripRef]
  · intro s body hs
    simp [crawl_url, hs]

/-- Witness for C7 as amended: a non-200 status stores nothing. -/
theorem c7_crawl_extraction_witness :
    crawl_url "http://e/" (some (404, "<p>x</p>")) = none :=
  (c7_crawl_extraction "http://e/").2.1 404 "<p>x</p>" (by decide)

/-! ## Claim C10: FAQ listing attaches children only to earlier parents -/

/-- Invariant of the get_faqs loop: running the loop from any dictionary
whose keys avoid the remaining row ids appends the reference entries for
the remaining rows and extends each existing entry's sub-FAQs with the
remaining rows that reference its key. -/
theorem faq_foldl (rows : List Faq) :
    ∀ acc : List (Nat × FaqEntry),
      (∀ p ∈ acc, ∀ r ∈ rows, p.1 ≠ r.id) →
      List.Pairwise (fun a b : Faq => a.id ≠ b.id) rows →
      rows.foldl faqStep acc =
        acc.map (fun p => (p.1, (⟨p.2.question, p.2.answer,
          p.2.sub_faqs ++ subsFor p.1 rows⟩ : FaqEntry))) ++ faqPairs rows := by
  induction rows with
  | nil =>
    intro acc _ _
    simp [faqPairs, subsFor]
  | cons r rest ih =>
    intro acc hdisj hpw
    have hpw' : List.Pairwise (fun a b : Faq => a.id ≠ b.id) rest :=
      (List.pairwise_cons.mp hpw).2
    have hhead : ∀ b ∈ rest, r.id ≠ b.id := (List.pairwise_cons.mp hpw).1
    rw [List.foldl_cons]
    cases hr : r.parentId with
    | none =>
      have hany : acc.any (fun p => p.1 == r.id) = false := by
        rw [List.any_eq_false]
        intro p hp
        simp [hdisj p hp r (List.mem_cons_self r rest)]
      have hstep : faqStep acc r =
          acc ++ [(r.id, (⟨r.question, r.answer, []⟩ : FaqEntry))] := by
        simp [faqStep, hr, hany]
      have hdisj' : ∀ p ∈ acc ++ [(r.id, (⟨r.question, r.answer, []⟩ : FaqEntry))],
          ∀ r' ∈ rest, p.1 ≠ r'.id := by
        intro p hp r' hr'
        rcases List.mem_append.mp hp with h | h
        · exact hdisj p h r' (List.mem_cons_of_mem _ hr')
        · have hpe : p = (r.id, (⟨r.question, r.answer, []⟩ : FaqEntry)) := by
            simpa using h
          rw [hpe]
          exact hhead r' hr'
      rw [hstep, ih _ hdisj' hpw']
      have hpairs : faqPairs (r :: rest) =
          (r.id, (⟨r.question, r.answer, subsFor r.id rest⟩ : FaqEntry)) ::
            faqPairs rest := by
        simp [faqPairs, hr]
      have hsubs : ∀ pid, subsFor pid (r :: rest) = subsFor pid rest := by
        intro pid
        have hb : (r.parentId == some pid) = false := by simp [hr]
        simp [subsFor, List.filter_cons, hb]
      rw [hpairs, List.map_append]
      have hmc : acc.map (fun p => (p.1, (⟨p.2.question, p.2.answer,
          p.2.sub_faqs ++ subsFor p.1 (r :: rest)⟩ : FaqEntry))) =
          acc.map (fun p => (p.1, (⟨p.2.question, p.2.answer,
            p.2.sub_faqs ++ subsFor p.1 rest⟩ : FaqEntry))) := by
        refine List.map_congr_left ?_
        intro p _
        rw [hsubs p.1]
      rw [hmc]
      simp
    | some pid =>
      cases hany : acc.any (fun p => p.1 == pid) with
      | true =>
        have hstep : faqStep acc r = acc.map (fun p =>
            if p.1 == pid
            then (p.1, (⟨p.2.question, p.2.answer,
              p.2.sub_faqs ++ [(r.question, r.answer)]⟩ : FaqEntry))
            else p) := by
          simp [faqStep, hr, hany]
        have hkeys : ∀ p : Nat × FaqEntry, ((fun p =>
            if p.1 == pid
            then (p.1, (⟨p.2.question, p.2.answer,
              p.2.sub_faqs ++ [(r.question, r.answer)]⟩ : FaqEntry))
            else p) p).1 = p.1 := by
          intro p
          by_cases h : p.1 = pid <;> simp [h]
        have hdisj' : ∀ p ∈ acc.map (fun p =>
            if p.1 == pid
            then (p.1, (⟨p.2.question, p.2.answer,
              p.2.sub_faqs ++ [(r.question, r.answer)]⟩ : FaqEntry))
            else p), ∀ r' ∈ rest, p.1 ≠ r'.id := by
          intro p hp r' hr'
          obtain ⟨p0, hp0, rfl⟩ := List.mem_map.mp hp
          rw [hkeys p0]
          exact hdisj p0 hp0 r' (List.mem_cons_of_mem _ hr')
        rw [hstep, ih _ hdisj' hpw']
        have hpairs : faqPairs (r :: rest) = faqPairs rest := by
          simp [faqPairs, hr]
        rw [hpairs, List.map_map]
        refine congrArg (fun l => l ++ faqPairs rest) ?_
        refine List.map_congr_left ?_
        intro p hp
        by_cases hpk : p.1 = pid
        · have hbeq : (p.1 == pid) = true := by simp [hpk]
          have hsubs : subsFor p.1 (r :: rest) =
              (r.question, r.answer) :: subsFor p.1 rest := by
            have hb : (r.parentId == some p.1) = true := by simp [hr, hpk]
            simp [subsFor, List.filter_cons, hb]
          simp [Function.comp, hbeq, hsubs]
        · have hbeq : (p.1 == pid) = false := by simp [hpk]
          have hsubs : subsFor p.1 (r :: rest) = subsFor p.1 rest := by
            have hb : (r.parentId == some p.1) = false := by
              rw [hr, beq_eq_false_iff_ne]
              intro h
              injection h with h2
              exact hpk h2.symm
            simp [subsFor, List.filter_cons, hb]
          simp [Function.comp, hbeq, hsubs]
      | false =>
        have hstep : faqStep acc r = acc := by
          simp [faqStep, hr, hany]
        have hdisj' : ∀ p ∈ acc, ∀ r' ∈ rest, p.1 ≠ r'.id :=
          fun p hp r' hr' => hdisj p hp r' (List.mem_cons_of_mem _ hr')
        rw [hstep, ih _ hdisj' hpw']
        have hpairs : faqPairs (r :: rest) = faqPairs rest := by
          simp [faqPairs, hr]
        rw [hpairs]
        refine congrArg (fun l => l ++ faqPairs rest) ?_
        refine List.map_congr_left ?_
        intro p hp
        have hne : p.1 ≠ pid := by
          have := List.any_eq_false.mp hany p hp
          simpa using this
        have hsubs : subsFor p.1 (r :: rest) = subsFor p.1 rest := by
          have hb : (r.parentId == some p.1) = false := by
            rw [hr, beq_eq_false_iff_ne]
            intro h
            injection h with h2
            exact hne h2.symm
          simp [subsFor, List.filter_cons, hb]
        rw [hsubs]

/-- C10: with distinct row ids, get_faqs on the ordered rows equals the
reference listing: only parentless rows appear as top-level entries, a
sub-FAQ is attached exactly when its parent row precedes it in the
iteration order, and a sub-FAQ whose parent comes later or matches no
top-level id is silently dropped. -/
theorem c10_get_faqs_tree (rows : List Faq)
    (h : (rows.map (fun r => r.id)).Nodup) :
    get_faqs rows = get_faqs_ref rows := by
  have hpw : List.Pairwise (fun a b : Faq => a.id ≠ b.id) rows :=
    List.pairwise_map.mp h
  unfold get_faqs get_faqs_ref
  rw [faq_foldl rows [] (by simp) hpw]
  simp

/-- Witness for C10: a child stored before its parent is dropped, a
child stored after it is attached. -/
theorem c10_get_faqs_tree_witness :
    (([⟨1, "c", "ca", some 2⟩, ⟨2, "p", "pa", none⟩,
       ⟨3, "d", "da", some 2⟩] : List Faq).map (fun r => r.id)).Nodup ∧
    get_faqs [⟨1, "c", "ca", some 2⟩, ⟨2, "p", "pa", none⟩,
      ⟨3, "d", "da", some 2⟩] =
      get_faqs_ref [⟨1, "c", "ca", some 2⟩, ⟨2, "p", "pa", none⟩,
        ⟨3, "d", "da", some 2⟩] ∧
    get_faqs [⟨1, "c", "ca", some 2⟩, ⟨2, "p", "pa", none⟩,
      ⟨3, "d", "da", some 2⟩] = [⟨"p", "pa", [("d", "da")]⟩] :=
  ⟨by decide, c10_get_faqs_tree _ (by decide), by decide⟩
